import Mathlib

/-!
# Verification of `ci/criterion_compare.py`

A shallow embedding of the benchmark-comparison script in
`src/ci/criterion_compare.py`, together with theorems settling the claims
about it.

Modelling conventions:

* Python floats are modelled by exact rationals extended with a positive
  infinity value (`XFloat`); the only non-finite float the script produces
  is the positive infinity returned by `percent_change` on a zero baseline.
* A JSON document (the value produced by Python's `json.load`) is the
  inductive type `Js`.  Objects are association lists; `json.load` yields
  dictionaries, so the lists used in statements have pairwise-distinct keys
  and lookup takes the first match.
* Python's `float(x)` conversion is modelled by `pyFloat`; numeric-string
  conversion is not modelled (criterion estimate files store JSON numbers,
  and no theorem below depends on the string case).
* The filesystem below the target directory is a list of
  (relative path, parsed JSON content) pairs, in the order in which
  `Path.rglob` yields the files.  Paths are lists of components relative to
  the target directory; files outside the target directory are not
  modelled, so an `estimates.json` sitting directly in the target directory
  is never paired (its sibling lookup would leave the modelled tree).
* `sorted(results, key=lambda r: r.name)` is a stable ascending sort by
  name; `List.insertionSort` is the stable ascending sort used to embed it.
  String comparison is lexicographic on code points on both sides.
* `main` is modelled from the point where the environment has been read
  (snapshot names, threshold and optional step-summary path are explicit
  parameters); the `argv` checks that exit with code 2 before any
  collection happens are outside the model.
-/

namespace CriterionCompare

/-- A JSON value as produced by Python's `json.load`. -/
inductive Js where
  | null
  | bool (b : Bool)
  | num (q : ℚ)
  | str (s : String)
  | arr (xs : List Js)
  | obj (kvs : List (String × Js))

/-- `data.get(key)` on a JSON object (`None` when the key is absent);
`none` is also returned for non-objects, but `load_mean_estimate` only
calls this after establishing that the document is an object. -/
def Js.get : Js → String → Option Js
  | .obj kvs, key => (kvs.find? (fun kv => kv.1 = key)).map (fun kv => kv.2)
  | _, _ => none

/-- Python's `float(x)` on a JSON-decoded value: numbers convert exactly,
booleans to 0 or 1; `None`, lists and objects raise `TypeError`.
Numeric strings (which `float` would accept) are not modelled. -/
def pyFloat : Js → Option ℚ
  | .num q => some q
  | .bool b => some (if b then 1 else 0)
  | _ => none

/-- How a run of the script can abort with an uncaught Python exception. -/
inductive LoadError where
  | attrError
  | floatError
  | unexpectedStructure (path : String)
deriving DecidableEq, Repr

/-- The loop body of `load_mean_estimate`: try the candidate keys in
order; the first whose value is a dict containing `"point_estimate"`
wins and its entry is converted with `float`; if no key matches, raise
`RuntimeError("Unexpected estimate structure in {path}")`. -/
def tryKeys (path : String) (data : Js) : List String → Except LoadError ℚ
  | [] => .error (.unexpectedStructure path)
  | key :: rest =>
    match data.get key with
    | some (.obj kvs) =>
      match (Js.obj kvs).get "point_estimate" with
      | some v =>
        match pyFloat v with
        | some q => .ok q
        | none => .error .floatError
      | none => tryKeys path data rest
    | _ => tryKeys path data rest

/-- `load_mean_estimate`: parse one estimates file.  A non-dict document
makes `data.get` raise `AttributeError`. -/
def load_mean_estimate (path : String) (data : Js) : Except LoadError ℚ :=
  match data with
  | .obj _ => tryKeys path data ["mean", "Mean"]
  | _ => .error .attrError

/-- Positive-infinity-extended exact value standing for the Python floats
the script compares (the only non-finite value produced is `float("inf")`
from `percent_change` on a zero baseline). -/
inductive XFloat where
  | fin (q : ℚ)
  | inf
deriving DecidableEq, Repr

/-- Multiplication by 100 (`result.percent_change * 100`);
`inf * 100 = inf`. -/
def XFloat.mul100 : XFloat → XFloat
  | .fin q => .fin (q * 100)
  | .inf => .inf

/-- `x < c` for a finite right-hand side; `inf < c` is false. -/
def XFloat.ltc : XFloat → ℚ → Bool
  | .fin q, c => decide (q < c)
  | .inf, _ => false

/-- `x > c` for a finite right-hand side; `inf > c` is true. -/
def XFloat.gtc : XFloat → ℚ → Bool
  | .fin q, c => decide (c < q)
  | .inf, _ => true

/-- The `BenchmarkResult` dataclass. -/
structure BenchmarkResult where
  name : String
  baseline_mean : ℚ
  current_mean : ℚ
deriving DecidableEq, Repr

/-- `delta = current_mean - baseline_mean`. -/
def BenchmarkResult.delta (r : BenchmarkResult) : ℚ :=
  r.current_mean - r.baseline_mean

/-- `percent_change = delta / baseline_mean`, `float("inf")` when
`baseline_mean == 0`. -/
def BenchmarkResult.percent_change (r : BenchmarkResult) : XFloat :=
  if r.baseline_mean = 0 then .inf else .fin (r.delta / r.baseline_mean)

/-- The status expression of `render_table`:
`"improved" if percent < 0 else "regressed" if percent > threshold * 100
else "unchanged"` where `percent = result.percent_change * 100`. -/
def rowStatus (r : BenchmarkResult) (threshold : ℚ) : String :=
  if r.percent_change.mul100.ltc 0 then "improved"
  else if r.percent_change.mul100.gtc (threshold * 100) then "regressed"
  else "unchanged"

/-- The rows of the table rendered by `render_table`, each paired with its
status label (numeric string formatting is not modelled; no claim
concerns it). -/
def render_rows (results : List BenchmarkResult) (threshold : ℚ) :
    List (BenchmarkResult × String) :=
  results.map (fun r => (r, rowStatus r threshold))

/-- The `regressions` list of `main`:
`[r for r in results if r.percent_change > threshold]`. -/
def regressions (results : List BenchmarkResult) (threshold : ℚ) :
    List BenchmarkResult :=
  results.filter (fun r => r.percent_change.gtc threshold)

/-- The exit code computed by `main` once collection has succeeded:
2 when no results, 1 when the regressions list is nonempty, otherwise 0. -/
def exit_code (results : List BenchmarkResult) (threshold : ℚ) : Nat :=
  if results.isEmpty then 2
  else if (regressions results threshold).isEmpty then 0 else 1

/-- A path relative to the target directory, as a list of components. -/
abbrev RelPath := List String

/-- The files below the target directory, with parsed contents, listed in
the order `Path.rglob` traverses them. -/
abbrev FileSys := List (RelPath × Js)

/-- Reading (opening and JSON-parsing) the file at a path. -/
def readFile (fs : FileSys) (p : RelPath) : Option Js :=
  (fs.find? (fun e => e.1 = p)).map (fun e => e.2)

/-- `str(path.relative_to(target_dir))`: components joined by the path
separator, `"."` for the target directory itself. -/
def pathStr (p : RelPath) : String :=
  if p.isEmpty then "." else String.intercalate "/" p

/-- The loop of `collect_results` over the paths `rglob` yields: skip
files not named `estimates.json`, skip files whose parent directory is
not the baseline snapshot, skip benchmarks whose current-side file does
not exist, otherwise load both sides (aborting on the first load error)
and record a `BenchmarkResult` named by the benchmark directory relative
to the target. -/
def collectLoop (fs : FileSys) (baseline current : String) :
    List RelPath → Except LoadError (List BenchmarkResult)
  | [] => .ok []
  | p :: rest =>
    if p.getLast? = some "estimates.json" ∧
        p.dropLast.getLast? = some baseline then
      match readFile fs p,
          readFile fs (p.dropLast.dropLast ++ [current, "estimates.json"]) with
      | some bdata, some cdata =>
        match load_mean_estimate (pathStr p) bdata with
        | .error e => .error e
        | .ok bmean =>
          match load_mean_estimate
              (pathStr (p.dropLast.dropLast ++ [current, "estimates.json"]))
              cdata with
          | .error e => .error e
          | .ok cmean =>
            match collectLoop fs baseline current rest with
            | .error e => .error e
            | .ok rs => .ok (⟨pathStr p.dropLast.dropLast, bmean, cmean⟩ :: rs)
      | _, _ => collectLoop fs baseline current rest
    else collectLoop fs baseline current rest

/-- The ascending-by-name order used by `sorted(results, key=...)`. -/
def nameLe (a b : BenchmarkResult) : Prop := a.name ≤ b.name

instance : DecidableRel nameLe := fun a b =>
  inferInstanceAs (Decidable (a.name ≤ b.name))

/-- `collect_results`: scan the tree, pair the snapshots, and return the
results sorted ascending by name (Python's `sorted` is the stable
ascending sort, embedded as insertion sort). -/
def collect_results (fs : FileSys) (baseline current : String) :
    Except LoadError (List BenchmarkResult) :=
  (collectLoop fs baseline current (fs.map (fun e => e.1))).map
    (fun rs => rs.insertionSort nameLe)

/-- Everything `main` shows once it runs to completion: the rendered
table rows, whether the step-summary file received the table, and the
exit code. -/
structure RunOutput where
  table : List (BenchmarkResult × String)
  summaryAppended : Bool
  exitCode : Nat
deriving DecidableEq, Repr

/-- `main` after the environment has been read: collect (propagating any
uncaught exception, which prevents all output), exit 2 on an empty result
list before rendering anything, otherwise render the table, append it to
the step summary when one is configured, and exit 1 exactly when the
regressions list is nonempty. -/
def main_run (fs : FileSys) (baseline current : String) (threshold : ℚ)
    (summaryEnv : Option String) : Except LoadError RunOutput :=
  match collect_results fs baseline current with
  | .error e => .error e
  | .ok results =>
    if results.isEmpty then .ok ⟨[], false, 2⟩
    else
      .ok ⟨render_rows results threshold, summaryEnv.isSome,
        exit_code results threshold⟩

/-! ## Concrete sample data used to instantiate the theorems -/

/-- A well-formed estimates document with the given point estimate. -/
def sampleEstimate (q : ℚ) : Js :=
  .obj [("mean", .obj [("point_estimate", .num q)])]

/-- One benchmark with both snapshots present (baseline 100, current 110). -/
def fsPair : FileSys :=
  [ (["b1", "base", "estimates.json"], sampleEstimate 100),
    (["b1", "new", "estimates.json"], sampleEstimate 110) ]

/-- One benchmark with only a baseline-side file. -/
def fsBaselineOnly : FileSys :=
  [ (["x", "base", "estimates.json"], sampleEstimate 100) ]

/-- One benchmark, used with identical snapshot names. -/
def fsSelf : FileSys :=
  [ (["s", "base", "estimates.json"], sampleEstimate 100) ]

/-- A tree whose baseline-side estimates file lacks the expected
structure while the current-side file is fine. -/
def fsBad : FileSys :=
  [ (["m", "base", "estimates.json"], .obj [("nope", .num 1)]),
    (["m", "new", "estimates.json"], sampleEstimate 5) ]

/-- A document whose `mean` object has a `point_estimate` entry that is
not numeric (JSON `null`). -/
def badDoc : Js := .obj [("mean", .obj [("point_estimate", .null)])]

/-! ## Helper lemmas -/

theorem XFloat.mul100_ltc_zero (x : XFloat) : x.mul100.ltc 0 = x.ltc 0 := by
  cases x with
  | inf => rfl
  | fin q =>
    simp only [XFloat.mul100, XFloat.ltc, decide_eq_decide]
    constructor <;> intro h <;> nlinarith

theorem XFloat.mul100_gtc (x : XFloat) (t : ℚ) :
    x.mul100.gtc (t * 100) = x.gtc t := by
  cases x with
  | inf => rfl
  | fin q =>
    simp only [XFloat.mul100, XFloat.gtc, decide_eq_decide]
    exact mul_lt_mul_right (by norm_num)

/-- The status branch of `render_table`, rewritten so that the two
comparisons are against the unscaled fraction. -/
theorem rowStatus_eq (r : BenchmarkResult) (threshold : ℚ) :
    rowStatus r threshold =
      if r.percent_change.ltc 0 then "improved"
      else if r.percent_change.gtc threshold then "regressed"
      else "unchanged" := by
  unfold rowStatus
  rw [XFloat.mul100_ltc_zero, XFloat.mul100_gtc]

theorem mem_regressions {r : BenchmarkResult} {results : List BenchmarkResult}
    {threshold : ℚ} :
    r ∈ regressions results threshold ↔
      r ∈ results ∧ r.percent_change.gtc threshold = true := by
  simp [regressions, List.mem_filter]

theorem exit_code_spec (results : List BenchmarkResult) (threshold : ℚ)
    (hne : results ≠ []) :
    exit_code results threshold =
      if ∃ r ∈ results, r.percent_change.gtc threshold = true then 1 else 0 := by
  have hemp : results.isEmpty = false := by
    cases results with
    | nil => exact absurd rfl hne
    | cons a l => rfl
  unfold exit_code
  rw [hemp]
  by_cases hx : ∃ r ∈ results, r.percent_change.gtc threshold = true
  · rcases hx with ⟨r, hm, hg⟩
    have hmem : r ∈ regressions results threshold := mem_regressions.mpr ⟨hm, hg⟩
    have hnn : (regressions results threshold).isEmpty = false := by
      cases hreg : regressions results threshold with
      | nil => rw [hreg] at hmem; cases hmem
      | cons b l => rfl
    have hx : ∃ x ∈ results, x.percent_change.gtc threshold = true := ⟨r, hm, hg⟩
    rw [hnn, if_pos hx]
    simp
  · have hnil : regressions results threshold = [] := by
      cases hreg : regressions results threshold with
      | nil => rfl
      | cons b l =>
        exfalso
        have hb : b ∈ regressions results threshold := by
          rw [hreg]; exact List.mem_cons_self b l
        rw [mem_regressions] at hb
        exact hx ⟨b, hb.1, hb.2⟩
    rw [hnil, if_neg hx]
    simp

theorem dropLast_append_of_getLast {α} {l : List α} {a : α}
    (h : l.getLast? = some a) : l.dropLast ++ [a] = l := by
  cases l with
  | nil => cases h
  | cons x xs =>
    have hne : (x :: xs : List α) ≠ [] := by simp
    rw [List.getLast?_eq_getLast _ hne] at h
    injection h with h
    rw [← h]
    exact List.dropLast_append_getLast hne

/-- A path whose last component is `a` and whose parent directory is
named `b` is its grandparent directory followed by `[b, a]`. -/
theorem eq_benchRoot_append {p : List String} {a b : String}
    (h1 : p.getLast? = some a) (h2 : p.dropLast.getLast? = some b) :
    p = p.dropLast.dropLast ++ [b, a] := by
  have e1 : p.dropLast ++ [a] = p := dropLast_append_of_getLast h1
  have e2 : p.dropLast.dropLast ++ [b] = p.dropLast :=
    dropLast_append_of_getLast h2
  calc p = p.dropLast ++ [a] := e1.symm
    _ = (p.dropLast.dropLast ++ [b]) ++ [a] := by rw [e2]
    _ = p.dropLast.dropLast ++ [b, a] := by simp

instance : IsTotal BenchmarkResult nameLe :=
  ⟨fun a b => le_total a.name b.name⟩

instance : IsTrans BenchmarkResult nameLe :=
  ⟨fun _ _ _ hab hbc => le_trans hab hbc⟩

/-- Any result list produced by the loop with identical snapshot names
reads both means from the very same file. -/
theorem collectLoop_self_eq {fs : FileSys} {snap : String} :
    ∀ {ps : List RelPath} {rs : List BenchmarkResult},
      collectLoop fs snap snap ps = .ok rs →
      ∀ r ∈ rs, r.baseline_mean = r.current_mean := by
  intro ps
  induction ps with
  | nil =>
    intro rs h r hr
    rw [collectLoop] at h
    injection h with h
    rw [← h] at hr
    cases hr
  | cons p rest ih =>
    intro rs h r hr
    rw [collectLoop] at h
    by_cases hc : (p.getLast? = some "estimates.json" ∧
        p.dropLast.getLast? = some snap)
    · rw [if_pos hc] at h
      have hp : p.dropLast.dropLast ++ [snap, "estimates.json"] = p :=
        (eq_benchRoot_append hc.1 hc.2).symm
      rw [hp] at h
      split at h
      next bdata cdata hb hcd =>
        split at h
        next => cases h
        next bmean hload =>
          split at h
          next => cases h
          next cmean hload2 =>
            rw [hb] at hcd
            injection hcd with hcd
            rw [← hcd, hload] at hload2
            injection hload2 with hload2
            split at h
            next => cases h
            next rs' hrec =>
              injection h with h
              rw [← h] at hr
              rcases List.mem_cons.mp hr with hEq | hMem
              · rw [hEq]
                exact hload2
              · exact ih hrec r hMem
      next => exact ih h r hr
    · rw [if_neg hc] at h
      exact ih h r hr

theorem collectLoop_cons_notBaseline {fs : FileSys} {baseline current : String}
    {p : RelPath} {rest : List RelPath}
    (hc : ¬ (p.getLast? = some "estimates.json" ∧
      p.dropLast.getLast? = some baseline)) :
    collectLoop fs baseline current (p :: rest) =
      collectLoop fs baseline current rest := by
  rw [collectLoop, if_neg hc]

theorem collectLoop_cons_noBase {fs : FileSys} {baseline current : String}
    {p : RelPath} {rest : List RelPath}
    (hc : p.getLast? = some "estimates.json" ∧
      p.dropLast.getLast? = some baseline)
    (hb : readFile fs p = none) :
    collectLoop fs baseline current (p :: rest) =
      collectLoop fs baseline current rest := by
  rw [collectLoop, if_pos hc, hb]

theorem collectLoop_cons_noCurrent {fs : FileSys} {baseline current : String}
    {p : RelPath} {rest : List RelPath}
    (hc : p.getLast? = some "estimates.json" ∧
      p.dropLast.getLast? = some baseline)
    (hcd : readFile fs (p.dropLast.dropLast ++ [current, "estimates.json"]) =
      none) :
    collectLoop fs baseline current (p :: rest) =
      collectLoop fs baseline current rest := by
  rw [collectLoop, if_pos hc, hcd]
  cases hb : readFile fs p with
  | none => rfl
  | some bdata => rfl

theorem collectLoop_cons_load {fs : FileSys} {baseline current : String}
    {p : RelPath} {rest : List RelPath} {bdata cdata : Js}
    (hc : p.getLast? = some "estimates.json" ∧
      p.dropLast.getLast? = some baseline)
    (hb : readFile fs p = some bdata)
    (hcd : readFile fs (p.dropLast.dropLast ++ [current, "estimates.json"]) =
      some cdata) :
    collectLoop fs baseline current (p :: rest) =
      (match load_mean_estimate (pathStr p) bdata with
       | .error e => .error e
       | .ok bmean =>
         match load_mean_estimate
             (pathStr (p.dropLast.dropLast ++ [current, "estimates.json"]))
             cdata with
         | .error e => .error e
         | .ok cmean =>
           match collectLoop fs baseline current rest with
           | .error e => .error e
           | .ok rs =>
             .ok (⟨pathStr p.dropLast.dropLast, bmean, cmean⟩ :: rs)) := by
  rw [collectLoop, if_pos hc, hb, hcd]

/-- Every result produced by the collection loop comes from a pair of
files under the same benchmark directory that both existed and parsed to
the recorded means. -/
theorem collectLoop_ok_mem {fs : FileSys} {baseline current : String} :
    ∀ {ps : List RelPath} {rs : List BenchmarkResult},
      collectLoop fs baseline current ps = .ok rs →
      ∀ r ∈ rs, ∃ benchRoot bdata cdata,
        readFile fs (benchRoot ++ [baseline, "estimates.json"]) = some bdata ∧
        readFile fs (benchRoot ++ [current, "estimates.json"]) = some cdata ∧
        load_mean_estimate
          (pathStr (benchRoot ++ [baseline, "estimates.json"])) bdata =
          .ok r.baseline_mean ∧
        load_mean_estimate
          (pathStr (benchRoot ++ [current, "estimates.json"])) cdata =
          .ok r.current_mean ∧
        r.name = pathStr benchRoot := by
  intro ps
  induction ps with
  | nil =>
    intro rs h r hr
    rw [collectLoop] at h
    injection h with h
    rw [← h] at hr
    cases hr
  | cons p rest ih =>
    intro rs h r hr
    rw [collectLoop] at h
    by_cases hc : (p.getLast? = some "estimates.json" ∧
        p.dropLast.getLast? = some baseline)
    · rw [if_pos hc] at h
      have hp : p = p.dropLast.dropLast ++ [baseline, "estimates.json"] :=
        eq_benchRoot_append hc.1 hc.2
      split at h
      next bdata cdata hb hcd =>
        split at h
        next => cases h
        next bmean hload =>
          split at h
          next => cases h
          next cmean hload2 =>
            split at h
            next => cases h
            next rs' hrec =>
              injection h with h
              rw [← h] at hr
              rcases List.mem_cons.mp hr with hEq | hMem
              · refine ⟨p.dropLast.dropLast, bdata, cdata, ?_, ?_, ?_, ?_, ?_⟩
                · rw [← hp]
                  exact hb
                · exact hcd
                · rw [← hp, hEq]
                  exact hload
                · rw [hEq]
                  exact hload2
                · rw [hEq]
              · exact ih hrec r hMem
      next => exact ih h r hr
    · rw [if_neg hc] at h
      exact ih h r hr

/-- If every baseline-side file that has a current-side counterpart
parses successfully, and so does the counterpart, the loop never
fails — in particular a benchmark lacking the current-side file is
skipped without error. -/
theorem collectLoop_ok_of_good {fs : FileSys} {baseline current : String} :
    ∀ {ps : List RelPath},
      (∀ p ∈ ps, p.getLast? = some "estimates.json" →
        p.dropLast.getLast? = some baseline →
        ∀ bdata cdata, readFile fs p = some bdata →
          readFile fs (p.dropLast.dropLast ++ [current, "estimates.json"]) =
            some cdata →
          (∃ q, load_mean_estimate (pathStr p) bdata = .ok q) ∧
          (∃ q, load_mean_estimate
            (pathStr (p.dropLast.dropLast ++ [current, "estimates.json"]))
            cdata = .ok q)) →
      ∃ rs, collectLoop fs baseline current ps = .ok rs := by
  intro ps
  induction ps with
  | nil =>
    intro hgood
    exact ⟨[], rfl⟩
  | cons p rest ih =>
    intro hgood
    rcases ih (fun q hq => hgood q (List.mem_cons_of_mem p hq)) with ⟨rs, hrs⟩
    by_cases hc : (p.getLast? = some "estimates.json" ∧
        p.dropLast.getLast? = some baseline)
    · cases hb : readFile fs p with
      | none =>
        exact ⟨rs, by rw [collectLoop_cons_noBase hc hb]; exact hrs⟩
      | some bdata =>
        cases hcd : readFile fs
            (p.dropLast.dropLast ++ [current, "estimates.json"]) with
        | none =>
          exact ⟨rs, by rw [collectLoop_cons_noCurrent hc hcd]; exact hrs⟩
        | some cdata =>
          rcases hgood p (List.mem_cons_self p rest) hc.1 hc.2 bdata cdata
            hb hcd with ⟨⟨bmean, hbm⟩, ⟨cmean, hcm⟩⟩
          refine ⟨⟨pathStr p.dropLast.dropLast, bmean, cmean⟩ :: rs, ?_⟩
          rw [collectLoop_cons_load hc hb hcd, hbm, hcm, hrs]
    · exact ⟨rs, by rw [collectLoop_cons_notBaseline hc]; exact hrs⟩

/-- The structure error raised by the key loop always names the path it
was given. -/
theorem tryKeys_error_path :
    ∀ {ks : List String} {path s : String} {data : Js},
      tryKeys path data ks = .error (.unexpectedStructure s) → s = path := by
  intro ks
  induction ks with
  | nil =>
    intro path s data h
    rw [tryKeys] at h
    injection h with h
    injection h with h
    exact h.symm
  | cons k rest ih =>
    intro path s data h
    rw [tryKeys] at h
    split at h
    next kvs hget =>
      split at h
      next v hv =>
        split at h
        next q hq => cases h
        next hq =>
          injection h with h
          cases h
      next hv => exact ih h
    next hget => exact ih h

/-- The structure error raised by `load_mean_estimate` always names the
offending file path. -/
theorem load_error_path {path s : String} {data : Js}
    (h : load_mean_estimate path data = .error (.unexpectedStructure s)) :
    s = path := by
  unfold load_mean_estimate at h
  split at h
  next kvs => exact tryKeys_error_path h
  next hne =>
    injection h with h
    cases h

/-- If some consumed estimate file fails to load, the loop aborts with a
load error of some actually consumed file. -/
theorem collectLoop_error_of_bad {fs : FileSys} {baseline current : String} :
    ∀ {ps : List RelPath},
      (∃ p ∈ ps, p.getLast? = some "estimates.json" ∧
        p.dropLast.getLast? = some baseline ∧
        (∃ cdata, readFile fs
          (p.dropLast.dropLast ++ [current, "estimates.json"]) =
          some cdata) ∧
        (∃ bdata, readFile fs p = some bdata ∧
          ((∃ e, load_mean_estimate (pathStr p) bdata = .error e) ∨
            (∃ cdata e, readFile fs
                (p.dropLast.dropLast ++ [current, "estimates.json"]) =
                some cdata ∧
              load_mean_estimate
                (pathStr
                  (p.dropLast.dropLast ++ [current, "estimates.json"]))
                cdata = .error e)))) →
      ∃ q d e, readFile fs q = some d ∧
        load_mean_estimate (pathStr q) d = .error e ∧
        (∃ p ∈ ps, p.getLast? = some "estimates.json" ∧
          p.dropLast.getLast? = some baseline ∧
          (q = p ∨ q = p.dropLast.dropLast ++ [current, "estimates.json"])) ∧
        collectLoop fs baseline current ps = .error e := by
  intro ps
  induction ps with
  | nil =>
    rintro ⟨p, hp, -⟩
    cases hp
  | cons p rest ih =>
    rintro ⟨p0, hp0mem, h1, h2, ⟨cdata0, hcd0⟩, ⟨bdata0, hb0, hfail⟩⟩
    by_cases hc : (p.getLast? = some "estimates.json" ∧
        p.dropLast.getLast? = some baseline)
    · cases hb : readFile fs p with
      | none =>
        have hp0r : p0 ∈ rest := by
          rcases List.mem_cons.mp hp0mem with hEq | hM
          · exfalso
            rw [hEq, hb] at hb0
            cases hb0
          · exact hM
        rcases ih ⟨p0, hp0r, h1, h2, ⟨cdata0, hcd0⟩,
            ⟨bdata0, hb0, hfail⟩⟩ with
          ⟨q, d, e, hq, hl, ⟨p1, hp1, hcc1, hcc2, hside⟩, hloop⟩
        exact ⟨q, d, e, hq, hl,
          ⟨p1, List.mem_cons_of_mem p hp1, hcc1, hcc2, hside⟩,
          by rw [collectLoop_cons_noBase hc hb]; exact hloop⟩
      | some bdata =>
        cases hcd : readFile fs
            (p.dropLast.dropLast ++ [current, "estimates.json"]) with
        | none =>
          have hp0r : p0 ∈ rest := by
            rcases List.mem_cons.mp hp0mem with hEq | hM
            · exfalso
              rw [hEq, hcd] at hcd0
              cases hcd0
            · exact hM
          rcases ih ⟨p0, hp0r, h1, h2, ⟨cdata0, hcd0⟩,
              ⟨bdata0, hb0, hfail⟩⟩ with
            ⟨q, d, e, hq, hl, ⟨p1, hp1, hcc1, hcc2, hside⟩, hloop⟩
          exact ⟨q, d, e, hq, hl,
            ⟨p1, List.mem_cons_of_mem p hp1, hcc1, hcc2, hside⟩,
            by rw [collectLoop_cons_noCurrent hc hcd]; exact hloop⟩
        | some cdata =>
          cases hloadb : load_mean_estimate (pathStr p) bdata with
          | error e =>
            refine ⟨p, bdata, e, hb, hloadb,
              ⟨p, List.mem_cons_self p rest, hc.1, hc.2, Or.inl rfl⟩, ?_⟩
            rw [collectLoop_cons_load hc hb hcd, hloadb]
          | ok bmean =>
            cases hloadc : load_mean_estimate
                (pathStr (p.dropLast.dropLast ++ [current, "estimates.json"]))
                cdata with
            | error e =>
              refine ⟨p.dropLast.dropLast ++ [current, "estimates.json"],
                cdata, e, hcd, hloadc,
                ⟨p, List.mem_cons_self p rest, hc.1, hc.2, Or.inr rfl⟩, ?_⟩
              rw [collectLoop_cons_load hc hb hcd, hloadb, hloadc]
            | ok cmean =>
              have hp0r : p0 ∈ rest := by
                rcases List.mem_cons.mp hp0mem with hEq | hM
                · exfalso
                  subst hEq
                  rw [hb] at hb0
                  injection hb0 with hb0
                  rcases hfail with ⟨e, he⟩ | ⟨cdata1, e, hcd1, he⟩
                  · rw [← hb0, hloadb] at he
                    cases he
                  · rw [hcd] at hcd1
                    injection hcd1 with hcd1
                    rw [← hcd1, hloadc] at he
                    cases he
                · exact hM
              rcases ih ⟨p0, hp0r, h1, h2, ⟨cdata0, hcd0⟩,
                  ⟨bdata0, hb0, hfail⟩⟩ with
                ⟨q, d, e, hq, hl, ⟨p1, hp1, hcc1, hcc2, hside⟩, hloop⟩
              refine ⟨q, d, e, hq, hl,
                ⟨p1, List.mem_cons_of_mem p hp1, hcc1, hcc2, hside⟩, ?_⟩
              rw [collectLoop_cons_load hc hb hcd, hloadb, hloadc, hloop]
    · have hp0r : p0 ∈ rest := by
        rcases List.mem_cons.mp hp0mem with hEq | hM
        · exact absurd ⟨hEq ▸ h1, hEq ▸ h2⟩ hc
        · exact hM
      rcases ih ⟨p0, hp0r, h1, h2, ⟨cdata0, hcd0⟩,
          ⟨bdata0, hb0, hfail⟩⟩ with
        ⟨q, d, e, hq, hl, ⟨p1, hp1, hcc1, hcc2, hside⟩, hloop⟩
      exact ⟨q, d, e, hq, hl,
        ⟨p1, List.mem_cons_of_mem p hp1, hcc1, hcc2, hside⟩,
        by rw [collectLoop_cons_notBaseline hc]; exact hloop⟩

/-- Key loop step: the key is present, its value is a dict containing a
`point_estimate` entry — that entry is converted and returned. -/
theorem tryKeys_cons_hit {path : String} {data : Js} {k : String}
    {rest : List String} {s : List (String × Js)} {v : Js}
    (hk : data.get k = some (.obj s))
    (hv : (Js.obj s).get "point_estimate" = some v) :
    tryKeys path data (k :: rest) =
      (match pyFloat v with
        | some q => Except.ok q
        | none => Except.error .floatError) := by
  simp only [tryKeys, hk, hv]

/-- Key loop step: the key misses (absent, not a dict, or a dict without
`point_estimate`) — the loop moves on to the remaining keys. -/
theorem tryKeys_cons_miss {path : String} {data : Js} {k : String}
    {rest : List String}
    (hmiss : ∀ s, data.get k = some (.obj s) →
      (Js.obj s).get "point_estimate" = none) :
    tryKeys path data (k :: rest) = tryKeys path data rest := by
  cases hk : data.get k with
  | none => simp only [tryKeys, hk]
  | some j =>
    cases j with
    | obj s => simp only [tryKeys, hk, hmiss s hk]
    | null => simp only [tryKeys, hk]
    | bool b => simp only [tryKeys, hk]
    | num q => simp only [tryKeys, hk]
    | str s2 => simp only [tryKeys, hk]
    | arr xs => simp only [tryKeys, hk]

/-- The conversion of a found entry never produces the structure
error. -/
theorem conv_ne_unexpected (path : String) (v : Js) :
    (match pyFloat v with
      | some q => Except.ok q
      | none => Except.error .floatError) ≠
      (.error (.unexpectedStructure path) : Except LoadError ℚ) := by
  cases hpv : pyFloat v <;> simp

theorem rowStatus_improved_iff (r : BenchmarkResult) (t : ℚ) :
    rowStatus r t = "improved" ↔ r.percent_change.ltc 0 = true := by
  rw [rowStatus_eq]
  cases hl : r.percent_change.ltc 0 with
  | true => simp
  | false =>
    cases hg : r.percent_change.gtc t with
    | true => simp
    | false => simp

theorem rowStatus_unchanged_iff (r : BenchmarkResult) (t : ℚ) :
    rowStatus r t = "unchanged" ↔
      r.percent_change.ltc 0 = false ∧ r.percent_change.gtc t = false := by
  rw [rowStatus_eq]
  cases hl : r.percent_change.ltc 0 with
  | true => simp
  | false =>
    cases hg : r.percent_change.gtc t with
    | true => simp
    | false => simp

/-- A percent change that strictly exceeds a nonnegative threshold cannot
be negative, so the improved branch is not taken. -/
theorem ltc_eq_false_of_gtc {r : BenchmarkResult} {t : ℚ} (ht : 0 ≤ t)
    (hg : r.percent_change.gtc t = true) :
    r.percent_change.ltc 0 = false := by
  cases hpc : r.percent_change with
  | inf => rfl
  | fin q =>
    rw [hpc] at hg
    simp only [XFloat.gtc, decide_eq_true_eq] at hg
    simp only [XFloat.ltc, decide_eq_false_iff_not, not_lt]
    linarith

theorem rowStatus_regressed_iff (r : BenchmarkResult) (t : ℚ) (ht : 0 ≤ t) :
    rowStatus r t = "regressed" ↔ r.percent_change.gtc t = true := by
  rw [rowStatus_eq]
  cases hg : r.percent_change.gtc t with
  | false =>
    cases hl : r.percent_change.ltc 0 with
    | true => simp
    | false => simp
  | true =>
    rw [ltc_eq_false_of_gtc ht hg]
    simp

/-! ## Claims -/

/-- C1: once at least one comparable benchmark has been collected, `main`
exits with code 1 exactly when some collected result has
`percent_change > threshold`, and with code 0 otherwise. -/
theorem claim_C1 (fs : FileSys) (baseline current : String) (threshold : ℚ)
    (summaryEnv : Option String) (results : List BenchmarkResult)
    (hcol : collect_results fs baseline current = .ok results)
    (hne : results ≠ []) :
    ∃ out, main_run fs baseline current threshold summaryEnv = .ok out ∧
      (out.exitCode = 1 ↔
        ∃ r ∈ results, r.percent_change.gtc threshold = true) ∧
      (out.exitCode = 0 ↔
        ¬ ∃ r ∈ results, r.percent_change.gtc threshold = true) := by
  have hemp : results.isEmpty = false := by
    cases results with
    | nil => exact absurd rfl hne
    | cons a l => rfl
  refine ⟨⟨render_rows results threshold, summaryEnv.isSome,
    exit_code results threshold⟩, ?_, ?_, ?_⟩
  · unfold main_run
    rw [hcol]
    simp [hemp]
  · rw [exit_code_spec results threshold hne]
    by_cases hx : ∃ r ∈ results, r.percent_change.gtc threshold = true
    · simp [hx]
    · simp [hx]
  · rw [exit_code_spec results threshold hne]
    by_cases hx : ∃ r ∈ results, r.percent_change.gtc threshold = true
    · simp [hx]
    · simp [hx]

/-- Witness for C1: on a tree with one benchmark regressing by 10%
against a 5% threshold, the run exits with code 1. -/
theorem claim_C1_witness :
    ∃ out, main_run fsPair "base" "new" (1/20) none = .ok out ∧
      (out.exitCode = 1 ↔ ∃ r ∈ [(⟨"b1", 100, 110⟩ : BenchmarkResult)],
        r.percent_change.gtc (1/20) = true) ∧
      (out.exitCode = 0 ↔ ¬ ∃ r ∈ [(⟨"b1", 100, 110⟩ : BenchmarkResult)],
        r.percent_change.gtc (1/20) = true) :=
  claim_C1 fsPair "base" "new" (1/20) none [⟨"b1", 100, 110⟩] (by rfl) (by simp)

/-- C2 (amended with a nonnegative threshold, the configuration the spec
describes): the status label is improved exactly when the percent change
is negative, regressed exactly when it strictly exceeds the threshold,
unchanged exactly when neither holds; the labels are exhaustive, a change
of exactly zero and any change in the closed interval from 0 to the
threshold are unchanged, and any finite change strictly above the
threshold is regressed.  (`ltc`/`gtc` are the comparisons of the
infinity-aware model values with a finite rational.) -/
theorem claim_C2 (r : BenchmarkResult) (threshold : ℚ) (ht : 0 ≤ threshold) :
    (rowStatus r threshold = "improved" ↔ r.percent_change.ltc 0 = true) ∧
    (rowStatus r threshold = "regressed" ↔
      r.percent_change.gtc threshold = true) ∧
    (rowStatus r threshold = "unchanged" ↔
      r.percent_change.ltc 0 = false ∧
        r.percent_change.gtc threshold = false) ∧
    (rowStatus r threshold = "improved" ∨ rowStatus r threshold = "regressed" ∨
      rowStatus r threshold = "unchanged") ∧
    (r.percent_change = .fin 0 → rowStatus r threshold = "unchanged") ∧
    (∀ q, r.percent_change = .fin q → 0 ≤ q → q ≤ threshold →
      rowStatus r threshold = "unchanged") ∧
    (∀ q, r.percent_change = .fin q → threshold < q →
      rowStatus r threshold = "regressed") := by
  refine ⟨rowStatus_improved_iff r threshold,
    rowStatus_regressed_iff r threshold ht,
    rowStatus_unchanged_iff r threshold, ?_, ?_, ?_, ?_⟩
  · rw [rowStatus_eq]
    cases hl : r.percent_change.ltc 0 with
    | true => simp
    | false =>
      cases hg : r.percent_change.gtc threshold with
      | true => simp
      | false => simp
  · intro h0
    rw [rowStatus_unchanged_iff, h0]
    constructor <;> simp [XFloat.ltc, XFloat.gtc, ht, not_lt]
  · intro q hq h0 hqt
    rw [rowStatus_unchanged_iff, hq]
    constructor <;> simp [XFloat.ltc, XFloat.gtc, not_lt] <;> linarith
  · intro q hq hqt
    rw [rowStatus_regressed_iff r threshold ht, hq]
    simp [XFloat.gtc, hqt]

/-- C2 fails as stated when the configured threshold is negative: with
threshold -1/2 a change of -1/4 is labelled improved, not regressed,
although it strictly exceeds the threshold. -/
theorem claim_C2_counterexample :
    ¬ ((rowStatus ⟨"a", 4, 3⟩ (-(1/2) : ℚ) = "regressed") ↔
      (BenchmarkResult.percent_change ⟨"a", 4, 3⟩).gtc (-(1/2) : ℚ) = true) := by
  have hpc : BenchmarkResult.percent_change ⟨"a", 4, 3⟩ = .fin (-(1/4)) := by
    unfold BenchmarkResult.percent_change BenchmarkResult.delta
    norm_num
  have hst : rowStatus ⟨"a", 4, 3⟩ (-(1/2) : ℚ) = "improved" := by
    rw [rowStatus_eq, hpc]
    norm_num [XFloat.ltc]
  have hgt : (BenchmarkResult.percent_change ⟨"a", 4, 3⟩).gtc (-(1/2) : ℚ)
      = true := by
    rw [hpc]
    norm_num [XFloat.gtc]
  intro h
  have himp := h.mpr hgt
  rw [hst] at himp
  exact absurd himp (by simp)

/-- Witness for C2: a 25% regression against a 5% threshold is labelled
regressed. -/
theorem claim_C2_witness : rowStatus ⟨"w", 4, 5⟩ (1/20) = "regressed" :=
  ((claim_C2 ⟨"w", 4, 5⟩ (1/20) (by norm_num)).2.1).mpr (by
    unfold BenchmarkResult.percent_change BenchmarkResult.delta
    norm_num [XFloat.gtc])

/-- C3 (amended with a nonnegative threshold): the display
classification marks a row regressed exactly when the independently
computed exit-status check puts the result into the regressions list. -/
theorem claim_C3 (r : BenchmarkResult) (results : List BenchmarkResult)
    (threshold : ℚ) (ht : 0 ≤ threshold) :
    (rowStatus r threshold = "regressed" ↔
      r.percent_change.gtc threshold = true) ∧
    (r ∈ results →
      (r ∈ regressions results threshold ↔
        rowStatus r threshold = "regressed")) := by
  refine ⟨rowStatus_regressed_iff r threshold ht, ?_⟩
  intro hm
  rw [mem_regressions, rowStatus_regressed_iff r threshold ht]
  constructor
  · exact fun h => h.2
  · exact fun h => ⟨hm, h⟩

/-- C3 fails as stated when the configured threshold is negative: with
threshold -1/2 a result with percent change -1/4 lands in the
exit-status regressions list but is displayed as improved. -/
theorem claim_C3_counterexample :
    rowStatus ⟨"b", 8, 6⟩ (-(1/2) : ℚ) ≠ "regressed" ∧
    (⟨"b", 8, 6⟩ : BenchmarkResult) ∈
      regressions [⟨"b", 8, 6⟩] (-(1/2) : ℚ) := by
  have hpc : BenchmarkResult.percent_change ⟨"b", 8, 6⟩ = .fin (-(1/4)) := by
    unfold BenchmarkResult.percent_change BenchmarkResult.delta
    norm_num
  constructor
  · have hst : rowStatus ⟨"b", 8, 6⟩ (-(1/2) : ℚ) = "improved" := by
      rw [rowStatus_eq, hpc]
      norm_num [XFloat.ltc]
    rw [hst]
    simp
  · rw [mem_regressions]
    refine ⟨List.mem_cons_self _ _, ?_⟩
    rw [hpc]
    norm_num [XFloat.gtc]

/-- Witness for C3: with threshold 5%, a 25% regression is both
displayed as regressed and counted in the regressions list. -/
theorem claim_C3_witness :
    (rowStatus ⟨"w2", 4, 5⟩ (1/20) = "regressed" ↔
      (BenchmarkResult.percent_change ⟨"w2", 4, 5⟩).gtc (1/20) = true) ∧
    ((⟨"w2", 4, 5⟩ : BenchmarkResult) ∈ [(⟨"w2", 4, 5⟩ : BenchmarkResult)] →
      ((⟨"w2", 4, 5⟩ : BenchmarkResult) ∈
          regressions [⟨"w2", 4, 5⟩] (1/20) ↔
        rowStatus ⟨"w2", 4, 5⟩ (1/20) = "regressed")) :=
  claim_C3 ⟨"w2", 4, 5⟩ [⟨"w2", 4, 5⟩] (1/20) (by norm_num)

/-- C4: for a nonzero baseline the percent change is exactly
(current - baseline) / baseline; for a zero baseline it is positive
infinity. -/
theorem claim_C4 (r : BenchmarkResult) :
    (r.baseline_mean ≠ 0 →
      r.percent_change =
        .fin ((r.current_mean - r.baseline_mean) / r.baseline_mean)) ∧
    (r.baseline_mean = 0 → r.percent_change = .inf) := by
  constructor
  · intro h
    unfold BenchmarkResult.percent_change BenchmarkResult.delta
    rw [if_neg h]
  · intro h
    unfold BenchmarkResult.percent_change
    rw [if_pos h]

/-- Witness for C4 at baseline 4, current 3. -/
theorem claim_C4_witness :
    BenchmarkResult.percent_change ⟨"a", 4, 3⟩ =
      .fin ((3 - 4) / 4) :=
  (claim_C4 ⟨"a", 4, 3⟩).1 (by norm_num)

/-- C5: a zero baseline gives an infinite percent change, the row is
classified regressed for every (finite rational) threshold, the result
always passes the independent exit-status comparison, and any run whose
collected results contain it exits with code 1. -/
theorem claim_C5 (r : BenchmarkResult) (threshold : ℚ)
    (h0 : r.baseline_mean = 0) :
    r.percent_change = .inf ∧
    rowStatus r threshold = "regressed" ∧
    r.percent_change.gtc threshold = true ∧
    (∀ results, r ∈ results → exit_code results threshold = 1) := by
  have hpc : r.percent_change = .inf := by
    unfold BenchmarkResult.percent_change
    rw [if_pos h0]
  have hgt : r.percent_change.gtc threshold = true := by
    rw [hpc]; rfl
  refine ⟨hpc, ?_, hgt, ?_⟩
  · rw [rowStatus_eq, hpc]
    rfl
  · intro results hmem
    have hne : results ≠ [] := by
      intro h
      rw [h] at hmem
      cases hmem
    have hx : ∃ x ∈ results, x.percent_change.gtc threshold = true :=
      ⟨r, hmem, hgt⟩
    rw [exit_code_spec results threshold hne, if_pos hx]

/-- Witness for C5 at baseline 0, current 5, threshold 5%. -/
theorem claim_C5_witness :
    BenchmarkResult.percent_change ⟨"z", 0, 5⟩ = .inf ∧
    rowStatus ⟨"z", 0, 5⟩ (1/20) = "regressed" ∧
    (BenchmarkResult.percent_change ⟨"z", 0, 5⟩).gtc (1/20) = true ∧
    (∀ results, (⟨"z", 0, 5⟩ : BenchmarkResult) ∈ results →
      exit_code results (1/20) = 1) :=
  claim_C5 ⟨"z", 0, 5⟩ (1/20) rfl

/-- C6: whatever order the filesystem traversal yields the estimate
files in, a successful collection returns its results sorted ascending
(lexicographically) by benchmark name. -/
theorem claim_C6 (fs : FileSys) (baseline current : String)
    (l : List BenchmarkResult)
    (h : collect_results fs baseline current = .ok l) :
    l.Sorted nameLe := by
  unfold collect_results at h
  cases hl : collectLoop fs baseline current (fs.map (fun e => e.1)) with
  | error e =>
    rw [hl] at h
    simp [Except.map] at h
  | ok rs =>
    rw [hl] at h
    simp only [Except.map] at h
    injection h with h
    rw [← h]
    exact List.sorted_insertionSort nameLe rs

/-- Witness for C6 on the two-file sample tree. -/
theorem claim_C6_witness :
    List.Sorted nameLe [(⟨"b1", 100, 110⟩ : BenchmarkResult)] :=
  claim_C6 fsPair "base" "new" [⟨"b1", 100, 110⟩] (by rfl)

/-- C10: with identical snapshot names every produced result pairs a
file with itself, so its means agree, its delta is zero, and it is never
labelled improved. -/
theorem claim_C10 (fs : FileSys) (snap : String) (threshold : ℚ)
    (l : List BenchmarkResult)
    (h : collect_results fs snap snap = .ok l) :
    ∀ r ∈ l, r.baseline_mean = r.current_mean ∧ r.delta = 0 ∧
      rowStatus r threshold ≠ "improved" := by
  intro r hr
  unfold collect_results at h
  cases hl : collectLoop fs snap snap (fs.map (fun e => e.1)) with
  | error e =>
    rw [hl] at h
    simp [Except.map] at h
  | ok rs =>
    rw [hl] at h
    simp only [Except.map] at h
    injection h with h
    rw [← h] at hr
    have hmem : r ∈ rs := (List.mem_insertionSort nameLe).mp hr
    have heq := collectLoop_self_eq hl r hmem
    have hdelta : r.current_mean - r.baseline_mean = 0 := by
      rw [heq]
      exact sub_self _
    refine ⟨heq, hdelta, ?_⟩
    rw [Ne, rowStatus_improved_iff]
    unfold BenchmarkResult.percent_change
    by_cases h0 : r.baseline_mean = 0
    · rw [if_pos h0]
      simp [XFloat.ltc]
    · rw [if_neg h0]
      unfold BenchmarkResult.delta
      rw [hdelta, zero_div]
      simp [XFloat.ltc]

/-- Witness for C10: one benchmark compared against itself. -/
theorem claim_C10_witness :
    (⟨"s", 100, 100⟩ : BenchmarkResult).baseline_mean =
      (⟨"s", 100, 100⟩ : BenchmarkResult).current_mean ∧
    (⟨"s", 100, 100⟩ : BenchmarkResult).delta = 0 ∧
    rowStatus ⟨"s", 100, 100⟩ (1/20) ≠ "improved" :=
  claim_C10 fsSelf "base" (1/20) [⟨"s", 100, 100⟩] (by rfl)
    ⟨"s", 100, 100⟩ (List.mem_cons_self _ _)

/-- C7: (first part) every result in a successful collection came from a
pair of files under one benchmark directory that both existed and parsed
to the recorded means — so, contrapositively, a benchmark whose
current-side file is missing never contributes a result; (second part)
when every consumed pair parses, collection succeeds, so the exclusion
of baseline-only benchmarks is silent rather than an error. -/
theorem claim_C7 :
    (∀ (fs : FileSys) (baseline current : String)
        (l : List BenchmarkResult),
      collect_results fs baseline current = .ok l →
      ∀ r ∈ l, ∃ benchRoot bdata cdata,
        readFile fs (benchRoot ++ [baseline, "estimates.json"]) = some bdata ∧
        readFile fs (benchRoot ++ [current, "estimates.json"]) = some cdata ∧
        load_mean_estimate
          (pathStr (benchRoot ++ [baseline, "estimates.json"])) bdata =
          .ok r.baseline_mean ∧
        load_mean_estimate
          (pathStr (benchRoot ++ [current, "estimates.json"])) cdata =
          .ok r.current_mean ∧
        r.name = pathStr benchRoot) ∧
    (∀ (fs : FileSys) (baseline current : String),
      (∀ p ∈ fs.map (fun e => e.1), p.getLast? = some "estimates.json" →
        p.dropLast.getLast? = some baseline →
        ∀ bdata cdata, readFile fs p = some bdata →
          readFile fs (p.dropLast.dropLast ++ [current, "estimates.json"]) =
            some cdata →
          (∃ q, load_mean_estimate (pathStr p) bdata = .ok q) ∧
          (∃ q, load_mean_estimate
            (pathStr (p.dropLast.dropLast ++ [current, "estimates.json"]))
            cdata = .ok q)) →
      ∃ l, collect_results fs baseline current = .ok l) := by
  constructor
  · intro fs baseline current l h r hr
    unfold collect_results at h
    cases hl : collectLoop fs baseline current (fs.map (fun e => e.1)) with
    | error e =>
      rw [hl] at h
      simp [Except.map] at h
    | ok rs =>
      rw [hl] at h
      simp only [Except.map] at h
      injection h with h
      rw [← h] at hr
      exact collectLoop_ok_mem hl r ((List.mem_insertionSort nameLe).mp hr)
  · intro fs baseline current hgood
    rcases collectLoop_ok_of_good hgood with ⟨rs, hrs⟩
    refine ⟨rs.insertionSort nameLe, ?_⟩
    unfold collect_results
    rw [hrs]
    rfl

/-- Witness for C7: the paired sample tree instantiates the invariant,
and the baseline-only tree is collected without error (to the empty
list). -/
theorem claim_C7_witness :
    (∀ r ∈ [(⟨"b1", 100, 110⟩ : BenchmarkResult)],
      ∃ benchRoot bdata cdata,
        readFile fsPair (benchRoot ++ ["base", "estimates.json"]) =
          some bdata ∧
        readFile fsPair (benchRoot ++ ["new", "estimates.json"]) =
          some cdata ∧
        load_mean_estimate
          (pathStr (benchRoot ++ ["base", "estimates.json"])) bdata =
          .ok r.baseline_mean ∧
        load_mean_estimate
          (pathStr (benchRoot ++ ["new", "estimates.json"])) cdata =
          .ok r.current_mean ∧
        r.name = pathStr benchRoot) ∧
    (∃ l, collect_results fsBaselineOnly "base" "new" = .ok l) := by
  constructor
  · exact claim_C7.1 fsPair "base" "new" [⟨"b1", 100, 110⟩] (by rfl)
  · refine claim_C7.2 fsBaselineOnly "base" "new" ?_
    intro p hp h1 h2 bdata cdata hbd hcd
    have hp' : p = ["x", "base", "estimates.json"] := by
      simpa [fsBaselineOnly] using hp
    rw [hp'] at hcd
    rw [show readFile fsBaselineOnly
        ((["x", "base", "estimates.json"] : RelPath).dropLast.dropLast ++
          ["new", "estimates.json"]) = none from rfl] at hcd
    cases hcd

/-- C8 (amended): the reader tries "mean" then "Mean"; the first key
whose value is a dict containing a `point_estimate` entry wins, and the
reader returns the float conversion of that entry (which itself fails
with a conversion error, not the structure error, when the entry is not
convertible); the structure error naming the file path is raised iff the
document is a dict and neither key's value is a dict containing a
`point_estimate` entry; a non-dict document raises an attribute error
instead. -/
theorem claim_C8 (path : String) (kvs : List (String × Js)) :
    (load_mean_estimate path (.obj kvs) =
        .error (.unexpectedStructure path) ↔
      ∀ k ∈ (["mean", "Mean"] : List String), ∀ s,
        (Js.obj kvs).get k = some (.obj s) →
        (Js.obj s).get "point_estimate" = none) ∧
    (∀ s v, (Js.obj kvs).get "mean" = some (.obj s) →
      (Js.obj s).get "point_estimate" = some v →
      load_mean_estimate path (.obj kvs) =
        (match pyFloat v with
          | some q => Except.ok q
          | none => Except.error .floatError)) ∧
    (∀ s v, (∀ s0, (Js.obj kvs).get "mean" = some (.obj s0) →
        (Js.obj s0).get "point_estimate" = none) →
      (Js.obj kvs).get "Mean" = some (.obj s) →
      (Js.obj s).get "point_estimate" = some v →
      load_mean_estimate path (.obj kvs) =
        (match pyFloat v with
          | some q => Except.ok q
          | none => Except.error .floatError)) ∧
    (∀ d : Js, (∀ l, d ≠ .obj l) →
      load_mean_estimate path d = .error .attrError) := by
  refine ⟨⟨?_, ?_⟩, ?_, ?_, ?_⟩
  · intro h k hk s hs
    cases hpe : (Js.obj s).get "point_estimate" with
    | none => rfl
    | some v =>
      exfalso
      have hk2 : k = "mean" ∨ k = "Mean" := by simpa using hk
      rcases hk2 with hkm | hkM
      · subst hkm
        have hload : load_mean_estimate path (.obj kvs) =
            (match pyFloat v with
              | some q => Except.ok q
              | none => Except.error .floatError) := by
          show tryKeys path (Js.obj kvs) ["mean", "Mean"] = _
          exact tryKeys_cons_hit hs hpe
        rw [hload] at h
        exact conv_ne_unexpected path v h
      · subst hkM
        have hmissM : ∀ s0, (Js.obj kvs).get "mean" = some (.obj s0) →
            (Js.obj s0).get "point_estimate" = none := by
          intro s0 hs0
          cases hpe0 : (Js.obj s0).get "point_estimate" with
          | none => rfl
          | some v0 =>
            exfalso
            have hload : load_mean_estimate path (.obj kvs) =
                (match pyFloat v0 with
                  | some q => Except.ok q
                  | none => Except.error .floatError) := by
              show tryKeys path (Js.obj kvs) ["mean", "Mean"] = _
              exact tryKeys_cons_hit hs0 hpe0
            rw [hload] at h
            exact conv_ne_unexpected path v0 h
        have hload : load_mean_estimate path (.obj kvs) =
            (match pyFloat v with
              | some q => Except.ok q
              | none => Except.error .floatError) := by
          show tryKeys path (Js.obj kvs) ["mean", "Mean"] = _
          rw [tryKeys_cons_miss hmissM]
          exact tryKeys_cons_hit hs hpe
        rw [hload] at h
        exact conv_ne_unexpected path v h
  · intro hall
    have h1 : ∀ s, (Js.obj kvs).get "mean" = some (.obj s) →
        (Js.obj s).get "point_estimate" = none :=
      fun s hs => hall "mean" (by simp) s hs
    have h2 : ∀ s, (Js.obj kvs).get "Mean" = some (.obj s) →
        (Js.obj s).get "point_estimate" = none :=
      fun s hs => hall "Mean" (by simp) s hs
    show tryKeys path (Js.obj kvs) ["mean", "Mean"] = _
    rw [tryKeys_cons_miss h1, tryKeys_cons_miss h2, tryKeys]
  · intro s v hm hv
    show tryKeys path (Js.obj kvs) ["mean", "Mean"] = _
    exact tryKeys_cons_hit hm hv
  · intro s v hmiss hM hv
    show tryKeys path (Js.obj kvs) ["mean", "Mean"] = _
    rw [tryKeys_cons_miss hmiss]
    exact tryKeys_cons_hit hM hv
  · intro d hd
    cases d with
    | obj l => exact absurd rfl (hd l)
    | null => rfl
    | bool b => rfl
    | num q => rfl
    | str s2 => rfl
    | arr xs => rfl

/-- C8 fails as stated: on a document whose `mean` object holds a
non-numeric `point_estimate` (JSON null), neither key spelling yields an
object containing the expected numeric field, yet the reader fails with
the float-conversion error (Python TypeError), not the structure error
naming the path. -/
theorem claim_C8_counterexample :
    load_mean_estimate "f" badDoc = .error .floatError ∧
    load_mean_estimate "f" badDoc ≠ .error (.unexpectedStructure "f") ∧
    badDoc.get "mean" = some (.obj [("point_estimate", Js.null)]) ∧
    (Js.obj [("point_estimate", Js.null)]).get "point_estimate" =
      some Js.null ∧
    pyFloat Js.null = none ∧
    badDoc.get "Mean" = none := by
  refine ⟨rfl, ?_, rfl, rfl, rfl, rfl⟩
  rw [show load_mean_estimate "f" badDoc = .error .floatError from rfl]
  simp

/-- Witness for C8: a well-formed document loads its numeric point
estimate through the winning "mean" key. -/
theorem claim_C8_witness :
    load_mean_estimate "f"
      (.obj [("mean", .obj [("point_estimate", .num 7)])]) = .ok 7 :=
  (claim_C8 "f" [("mean", .obj [("point_estimate", .num 7)])]).2.1
    [("point_estimate", .num 7)] (.num 7) rfl rfl

/-- C9: if any estimate file consumed during collection fails to load,
the run aborts with that load error before producing any output (no
table, no summary append, no exit code), and a structure error names the
offending file's path. -/
theorem claim_C9 (fs : FileSys) (baseline current : String) (threshold : ℚ)
    (summaryEnv : Option String)
    (hbad : ∃ p ∈ fs.map (fun e => e.1),
      p.getLast? = some "estimates.json" ∧
      p.dropLast.getLast? = some baseline ∧
      (∃ cdata, readFile fs
        (p.dropLast.dropLast ++ [current, "estimates.json"]) = some cdata) ∧
      (∃ bdata, readFile fs p = some bdata ∧
        ((∃ e, load_mean_estimate (pathStr p) bdata = .error e) ∨
          (∃ cdata e, readFile fs
              (p.dropLast.dropLast ++ [current, "estimates.json"]) =
              some cdata ∧
            load_mean_estimate
              (pathStr (p.dropLast.dropLast ++ [current, "estimates.json"]))
              cdata = .error e)))) :
    ∃ q d e, readFile fs q = some d ∧
      load_mean_estimate (pathStr q) d = .error e ∧
      (∃ p ∈ fs.map (fun e => e.1), p.getLast? = some "estimates.json" ∧
        p.dropLast.getLast? = some baseline ∧
        (q = p ∨ q = p.dropLast.dropLast ++ [current, "estimates.json"])) ∧
      (∀ s, e = .unexpectedStructure s → s = pathStr q) ∧
      main_run fs baseline current threshold summaryEnv = .error e ∧
      (∀ out, main_run fs baseline current threshold summaryEnv ≠
        .ok out) := by
  rcases collectLoop_error_of_bad hbad with ⟨q, d, e, hq, hl, hcons, hloop⟩
  have hmain : main_run fs baseline current threshold summaryEnv =
      .error e := by
    unfold main_run collect_results
    rw [hloop]
    rfl
  refine ⟨q, d, e, hq, hl, hcons, ?_, hmain, ?_⟩
  · intro s hs
    rw [hs] at hl
    exact load_error_path hl
  · intro out hout
    rw [hmain] at hout
    cases hout

/-- Witness for C9: the tree whose baseline-side file has an unexpected
structure makes the run abort with the structure error. -/
theorem claim_C9_witness :
    ∃ q d e, readFile fsBad q = some d ∧
      load_mean_estimate (pathStr q) d = .error e ∧
      (∃ p ∈ fsBad.map (fun e => e.1), p.getLast? = some "estimates.json" ∧
        p.dropLast.getLast? = some "base" ∧
        (q = p ∨ q = p.dropLast.dropLast ++ ["new", "estimates.json"])) ∧
      (∀ s, e = .unexpectedStructure s → s = pathStr q) ∧
      main_run fsBad "base" "new" (1/20) none = .error e ∧
      (∀ out, main_run fsBad "base" "new" (1/20) none ≠ .ok out) :=
  claim_C9 fsBad "base" "new" (1/20) none
    ⟨["m", "base", "estimates.json"], by simp [fsBad], rfl, rfl,
      ⟨sampleEstimate 5, rfl⟩,
      ⟨.obj [("nope", .num 1)], rfl,
        Or.inl ⟨.unexpectedStructure
          (pathStr ["m", "base", "estimates.json"]), rfl⟩⟩⟩

end CriterionCompare
